import Mathlib

/-!
Shallow embedding of the WeMaps backend room-coordination core
(`src/services/roomService.ts`, `src/utils/roomCode.ts`, the chat handlers of
`src/config/socket.ts`, and the Prisma data model in `prisma/schema.prisma`).

The durable store is a `DB` value (lists of room and membership rows); the
key-value store is an association list; a Prisma `$transaction` is a Lean
function returning `Except` (an error means the transaction rolled back, so
no new `DB` is produced).  All identifiers are strings, as in the source.
-/

namespace WeMaps

/-- Membership role, column `room_members.role` (written as `'owner'` or
`'member'` by the service). -/
inductive Role
  | owner
  | member
deriving DecidableEq, Repr

/-- Membership status, column `room_members.status` (written as `'active'` or
`'left'` by the service). -/
inductive MStatus
  | active
  | left
deriving DecidableEq, Repr

/-- Room status, column `rooms.status` (written as `'active'`, `'expired'` or
`'closed'` by the service). -/
inductive RStatus
  | active
  | expired
  | closed
deriving DecidableEq, Repr

/-- A row of the `room_members` table (prisma model `RoomMember`).
Timestamps are modelled as natural-number milliseconds. -/
structure RoomMember where
  id : String
  room_id : String
  user_id : String
  nickname : String
  role : Role
  status : MStatus
  join_order : Nat
  last_seen : Option Nat
  left_at : Option Nat
deriving DecidableEq, Repr

/-- A row of the `rooms` table (prisma model `Room`). -/
structure Room where
  id : String
  room_code : String
  name : String
  destination_name : String
  created_by : String
  max_members : Nat
  status : RStatus
  expires_at : Option Nat
  completed_at : Option Nat
deriving DecidableEq, Repr

/-- The durable relational state: the two tables the room service mutates. -/
structure DB where
  rooms : List Room
  members : List RoomMember
deriving DecidableEq, Repr

/-- `prisma.room.findUnique({ where: { id } })`. -/
def findRoom (db : DB) (rid : String) : Option Room :=
  db.rooms.find? (fun r => r.id == rid)

/-- The `members` relation included with `where: { status: 'active' }` in
`joinRoom`, and the active-member queries elsewhere in the service. -/
def activeMembersOf (db : DB) (rid : String) : List RoomMember :=
  db.members.filter (fun m => m.room_id == rid && m.status == MStatus.active)

/-- `prisma.roomMember.findUnique({ where: { room_id_user_id: … } })` /
`findFirst({ where: { room_id, user_id } })`; the schema's
`@@unique([room_id, user_id])` makes the two queries agree. -/
def findMemberRow (db : DB) (rid uid : String) : Option RoomMember :=
  db.members.find? (fun m => m.room_id == rid && m.user_id == uid)

/-- `prisma.roomMember.update({ where: { id } })`: rewrite the row(s) whose
primary key matches. -/
def updateMemberRow (ms : List RoomMember) (mid : String)
    (f : RoomMember → RoomMember) : List RoomMember :=
  ms.map (fun m => if m.id == mid then f m else m)

/-- `prisma.room.update({ where: { id } })`. -/
def updateRoomRow (rs : List Room) (rid : String)
    (f : Room → Room) : List Room :=
  rs.map (fun r => if r.id == rid then f r else r)

/-- `findFirst({ …, orderBy: { join_order: 'asc' } })`: the first row with
minimal `join_order` (ties resolved towards the earlier row). -/
def minByJoinOrder : List RoomMember → Option RoomMember
  | [] => none
  | m :: ms =>
    match minByJoinOrder ms with
    | none => some m
    | some m' => if m'.join_order < m.join_order then some m' else some m

/-- The `room.expires_at && room.expires_at < new Date()` test of `joinRoom`. -/
def isExpired (room : Room) (now : Nat) : Bool :=
  match room.expires_at with
  | some e => decide (e < now)
  | none => false

/-- The error messages thrown by the room service. -/
inductive JoinError
  | notFoundOrInactive
  | busy
  | notFound
  | inactive
  | expired
  | roomFull
  | alreadyMember
deriving DecidableEq, Repr

/-- Errors thrown by `leaveRoom`. -/
inductive LeaveError
  | notMember
  | notActive
deriving DecidableEq, Repr

/-- The `{ room, roomMember, isRejoining }` value returned by `joinRoom`'s
transaction. -/
structure JoinResult where
  room : Room
  roomMember : RoomMember
  isRejoining : Bool
deriving DecidableEq, Repr

/-- The durable transaction of `RoomService.createRoom` (roomService.ts
30–62): insert the room (status `active`, expiry `now + expiresIn` hours) and
its owner membership row with `join_order` 1. -/
def createRoomTx (db : DB) (roomId memberId code name destName createdBy : String)
    (maxMembers expiresIn now : Nat) : DB × Room × RoomMember :=
  let room : Room :=
    { id := roomId, room_code := code, name := name,
      destination_name := destName, created_by := createdBy,
      max_members := maxMembers, status := RStatus.active,
      expires_at := some (now + expiresIn * 60 * 60 * 1000),
      completed_at := none }
  let owner : RoomMember :=
    { id := memberId, room_id := roomId, user_id := createdBy,
      nickname := name, role := Role.owner, status := MStatus.active,
      join_order := 1, last_seen := some now, left_at := none }
  ({ rooms := db.rooms ++ [room], members := db.members ++ [owner] },
   room, owner)

/-- The durable transaction of `RoomService.joinRoom` (roomService.ts
120–192): re-read the room and its active members, run the status / expiry /
capacity guards, then either reactivate the caller's existing membership row
or insert a new one with `join_order = activeCount + 1`.  An error means the
transaction rolled back. -/
def joinRoomTx (db : DB) (rid uid : String) (nickname : Option String)
    (newId : String) (now : Nat) : Except JoinError (DB × JoinResult) :=
  match findRoom db rid with
  | none => .error .notFound
  | some room =>
    if room.status ≠ RStatus.active then .error .inactive
    else if isExpired room now then .error .expired
    else
      let act := activeMembersOf db rid
      if act.length ≥ room.max_members then .error .roomFull
      else
        match findMemberRow db rid uid with
        | some em =>
          if em.status = MStatus.active then .error .alreadyMember
          else
            let updated : RoomMember :=
              { em with status := MStatus.active,
                        nickname := nickname.getD em.nickname,
                        last_seen := some now }
            .ok ({ db with members := updateMemberRow db.members em.id (fun _ => updated) },
                 ⟨room, updated, true⟩)
        | none =>
          let newMember : RoomMember :=
            { id := newId, room_id := rid, user_id := uid,
              nickname := nickname.getD "Member",
              role := Role.member, status := MStatus.active,
              join_order := act.length + 1,
              last_seen := some now, left_at := none }
          .ok ({ db with members := db.members ++ [newMember] },
               ⟨room, newMember, false⟩)

/-- The durable transaction of `RoomService.leaveRoom` (roomService.ts
218–292): idempotent on an already-left row; otherwise mark the row left and,
when the departing member held `role = owner`, promote the remaining active
member with smallest `join_order`, or close the room when none remains. -/
def leaveRoomTx (db : DB) (rid uid : String) (now : Nat) :
    Except LeaveError (DB × RoomMember) :=
  match findMemberRow db rid uid with
  | none => .error .notMember
  | some rm =>
    if rm.status = MStatus.left then .ok (db, rm)
    else if rm.status ≠ MStatus.active then .error .notActive
    else
      let updatedRm : RoomMember := { rm with status := MStatus.left, left_at := some now }
      let db1 : DB := { db with members := updateMemberRow db.members rm.id (fun _ => updatedRm) }
      if rm.role = Role.owner then
        match minByJoinOrder (db1.members.filter
            (fun m => m.room_id == rid && m.user_id != uid && m.status == MStatus.active)) with
        | some nm =>
          let promoted := updateMemberRow db1.members nm.id (fun m => { m with role := Role.owner })
          .ok ({ db1 with members := promoted }, updatedRm)
        | none =>
          let closedRooms := updateRoomRow db1.rooms rid
            (fun r => { r with status := RStatus.closed, completed_at := some now })
          .ok ({ db1 with rooms := closedRooms }, updatedRm)
      else .ok (db1, updatedRm)

/-! ### The key-value store (redis string keys)

Holds the distributed-lock keys `lock:room:{id}:join`, the code-reservation /
code-mapping keys `room_code:{code}`, and the location keys
`location:{roomId}:{userId}`. -/

/-- String-keyed redis state, as an association list. -/
abbrev KV := List (String × String)

/-- `redis GET key`. -/
def kvGet (kv : KV) (k : String) : Option String :=
  (kv.find? (fun p => p.1 == k)).map Prod.snd

/-- `redis SET` / `SETEX`: overwrite the binding for `k`, or add one. -/
def kvSet : KV → String → String → KV
  | [], k, v => [(k, v)]
  | p :: ps, k, v => if p.1 == k then (k, v) :: ps else p :: kvSet ps k v

/-- `redis DEL key`. -/
def kvDel (kv : KV) (k : String) : KV :=
  kv.filter (fun p => p.1 != k)

/-- `redis SET key value NX PX …`: set only if absent; report whether it was
set.  This is `joinRoom`'s lock acquisition (roomService.ts 110–113). -/
def setNX (kv : KV) (k v : String) : Bool × KV :=
  match kvGet kv k with
  | some _ => (false, kv)
  | none => (true, kvSet kv k v)

/-- The lock-release Lua script of `joinRoom` (roomService.ts 200–210):
delete `k` only when its current value equals `tok`; otherwise do nothing. -/
def releaseLock (kv : KV) (k tok : String) : KV :=
  match kvGet kv k with
  | some v => if v = tok then kvDel kv k else kv
  | none => kv

/-- The lock key `lock:room:{roomId}:join` of `joinRoom`. -/
def lockKeyFor (rid : String) : String :=
  "lock:room:" ++ rid ++ ":join"

/-- The code key `room_code:{code}` shared by `roomCode.ts` and the service. -/
def codeKeyFor (code : String) : String :=
  "room_code:" ++ code

/-- `releaseRoomCode` (roomCode.ts 64–70): delete the reservation key. -/
def releaseRoomCode (kv : KV) (code : String) : KV :=
  kvDel kv (codeKeyFor code)

/-! ### The snapshot cache and the member sets -/

/-- A cached `room:{id}` entry: the serialized room columns plus the
`memberCount` field maintained by `cacheRoomData` / `updateRoomMemberCount`.
The count is an integer because the cache update computes
`Math.max(0, count + delta)` over a possibly negative sum. -/
structure CachedRoom where
  room : Room
  memberCount : Int
deriving DecidableEq, Repr

/-- The `room:{id}` cache, keyed by room id. -/
abbrev RoomCache := List (String × CachedRoom)

/-- Read the cached entry for a room. -/
def cacheLookup (c : RoomCache) (rid : String) : Option CachedRoom :=
  (c.find? (fun p => p.1 == rid)).map Prod.snd

/-- `SETEX room:{id} 3600 …`: overwrite or add the cached entry. -/
def cacheSet : RoomCache → String → CachedRoom → RoomCache
  | [], rid, v => [(rid, v)]
  | p :: ps, rid, v => if p.1 == rid then (rid, v) :: ps else p :: cacheSet ps rid v

/-- The `room:{id}:members` redis sets, keyed by room id. -/
abbrev MemberSets := List (String × List String)

/-- `SISMEMBER room:{rid}:members uid`. -/
def sIsMember (sets : MemberSets) (rid uid : String) : Bool :=
  match (sets.find? (fun p => p.1 == rid)).map Prod.snd with
  | some l => l.contains uid
  | none => false

/-- `SADD room:{rid}:members ids`: union the ids into the set. -/
def sAddAll (sets : MemberSets) (rid : String) (ids : List String) : MemberSets :=
  if (sets.find? (fun p => p.1 == rid)).isSome then
    sets.map (fun p =>
      if p.1 == rid then (rid, p.2 ++ ids.filter (fun i => !p.2.contains i)) else p)
  else (rid, ids) :: sets

/-- `SREM room:{rid}:members uid`. -/
def sRem (sets : MemberSets) (rid uid : String) : MemberSets :=
  sets.map (fun p => if p.1 == rid then (rid, p.2.filter (fun i => i != uid)) else p)

/-- The whole mutable state the service touches: the durable store and the
three kinds of redis state. -/
structure St where
  db : DB
  kv : KV
  cache : RoomCache
  memberSets : MemberSets
deriving DecidableEq, Repr

/-- `RoomService.updateRoomMemberCount` (roomService.ts 396–409): when a
cached entry exists, store `Math.max(0, memberCount + delta)`; when none
exists, change nothing. -/
def updateRoomMemberCount (c : RoomCache) (rid : String) (delta : Int) : RoomCache :=
  match cacheLookup c rid with
  | none => c
  | some room => cacheSet c rid { room with memberCount := max 0 (room.memberCount + delta) }

/-- `RoomService.cacheRoomData` (roomService.ts 414–434) on the database
fallback of `getRoomDetails`, where the room object carries its active
members: cache the view with `memberCount = members.length` and `SADD` the
member ids (skipped when the member list is empty). -/
def cacheRoomData (st : St) (rid : String) (room : Room)
    (members : List RoomMember) : St :=
  let cache' := cacheSet st.cache rid { room := room, memberCount := (members.length : Int) }
  let sets' :=
    if members.length > 0 then sAddAll st.memberSets rid (members.map (fun m => m.user_id))
    else st.memberSets
  { st with cache := cache', memberSets := sets' }

/-! ### The full service operations over `St` -/

/-- `createRoom` failure cases that matter to the embedding: the durable
transaction failing after the code was allocated.  The failure is injected as
a flag because the store's own behaviour is external. -/
inductive CreateError
  | txFailed
deriving DecidableEq, Repr

/-- `RoomService.createRoom` (roomService.ts 26–83), starting from
`generateRoomCode`'s successful reservation of `code` (roomCode.ts 26:
`SETEX room_code:{code} 300 'reserved'`).  When the durable transaction
fails, the `catch` block runs `releaseRoomCode` and rethrows; on success the
room view is cached with `memberCount = 1` (no member list, so the member set
is untouched) and `room_code:{code}` is remapped to the room id. -/
def createRoom (st : St) (code roomId memberId name destName createdBy : String)
    (maxMembers expiresIn now : Nat) (txFails : Bool) :
    Except CreateError Room × St :=
  let kv0 := kvSet st.kv (codeKeyFor code) "reserved"
  if txFails then
    (.error .txFailed, { st with kv := releaseRoomCode kv0 code })
  else
    let r := createRoomTx st.db roomId memberId code name destName createdBy maxMembers expiresIn now
    let cache' := cacheSet st.cache roomId { room := r.2.1, memberCount := 1 }
    let kv1 := kvSet kv0 (codeKeyFor code) roomId
    (.ok r.2.1, { st with db := r.1, kv := kv1, cache := cache' })

/-- The code-resolution prefix of `joinRoom` (roomService.ts 92–105): read
`room_code:{code}` from redis, falling back to a durable lookup that accepts
only an active room. -/
def resolveRoomCode (db : DB) (kv : KV) (code : String) : Except JoinError String :=
  match kvGet kv (codeKeyFor code) with
  | some rid => .ok rid
  | none =>
    match db.rooms.find? (fun r => r.room_code == code) with
    | some room =>
      if room.status = RStatus.active then .ok room.id else .error .notFoundOrInactive
    | none => .error .notFoundOrInactive

/-- `RoomService.joinRoom` (roomService.ts 88–212): resolve the code, acquire
the per-room lock with a fresh token, run the durable transaction, update the
cached member count on success, and — in the `finally` block — run the
compare-and-delete release on every exit path after acquisition. -/
def joinRoom (st : St) (code uid : String) (nickname : Option String)
    (lockTok newId : String) (now : Nat) : Except JoinError JoinResult × St :=
  match resolveRoomCode st.db st.kv code with
  | .error e => (.error e, st)
  | .ok rid =>
    let lockKey := lockKeyFor rid
    match setNX st.kv lockKey lockTok with
    | (false, kv1) => (.error .busy, { st with kv := kv1 })
    | (true, kv1) =>
      match joinRoomTx st.db rid uid nickname newId now with
      | .error e => (.error e, { st with kv := releaseLock kv1 lockKey lockTok })
      | .ok (db', res) =>
        let cache' := updateRoomMemberCount st.cache rid 1
        (.ok res, { st with db := db', cache := cache',
                            kv := releaseLock kv1 lockKey lockTok })

/-- `RoomService.leaveRoom` (roomService.ts 217–304) including its
post-transaction cache maintenance: when the returned row has status `left`,
decrement the cached member count, delete the member's location key and
`SREM` them from the room's member set. -/
def leaveRoomFull (st : St) (rid uid : String) (now : Nat) :
    Except LeaveError RoomMember × St :=
  match leaveRoomTx st.db rid uid now with
  | .error e => (.error e, st)
  | .ok (db', rm) =>
    if rm.status = MStatus.left then
      let cache' := updateRoomMemberCount st.cache rid (-1)
      let kv' := kvDel st.kv ("location:" ++ rid ++ ":" ++ uid)
      let sets' := sRem st.memberSets rid uid
      (.ok rm, { st with db := db', cache := cache', kv := kv', memberSets := sets' })
    else (.ok rm, { st with db := db' })

/-- Errors of `getRoomDetails`. -/
inductive DetailsError
  | accessDenied
  | notFound
deriving DecidableEq, Repr

/-- The two shapes `getRoomDetails` returns: the parsed cached JSON on a
cache hit, or the freshly read room with its active members (ordered by
`join_order`) on the database fallback. -/
inductive RoomDetails
  | cached (data : CachedRoom)
  | fresh (room : Room) (members : List RoomMember)
deriving DecidableEq, Repr

/-- Insert into a list sorted by ascending `join_order`. -/
def insertByJoinOrder (m : RoomMember) : List RoomMember → List RoomMember
  | [] => [m]
  | x :: xs =>
    if m.join_order ≤ x.join_order then m :: x :: xs else x :: insertByJoinOrder m xs

/-- `orderBy: { join_order: 'asc' }` on a member list. -/
def sortByJoinOrder : List RoomMember → List RoomMember
  | [] => []
  | x :: xs => insertByJoinOrder x (sortByJoinOrder xs)

/-- `RoomService.getRoomDetails` (roomService.ts 309–362): on a cache hit,
authorization checks only the cached member set and the cached view is
returned as is (no status or expiry re-check); on a miss, the durable room is
read with its active members, access is checked against those members, and
the cache is repopulated. -/
def getRoomDetails (st : St) (rid : String) (uid : Option String) :
    Except DetailsError RoomDetails × St :=
  match cacheLookup st.cache rid with
  | some data =>
    match uid with
    | some u =>
      if sIsMember st.memberSets rid u then (.ok (.cached data), st)
      else (.error .accessDenied, st)
    | none => (.ok (.cached data), st)
  | none =>
    match findRoom st.db rid with
    | none => (.error .notFound, st)
    | some room =>
      let members := sortByJoinOrder (activeMembersOf st.db rid)
      match uid with
      | some u =>
        if members.any (fun m => m.user_id == u) then
          (.ok (.fresh room members), cacheRoomData st rid room members)
        else (.error .accessDenied, st)
      | none => (.ok (.fresh room members), cacheRoomData st rid room members)

/-! ### The chat log (socket.ts send-message / request-chat-history) -/

/-- A chat message as built by the `send-message` handler. -/
structure ChatMessage where
  id : String
  roomId : String
  userId : String
  userName : String
  content : String
  timestamp : Nat
deriving DecidableEq, Repr

/-- The `chat:room:{id}:messages` redis list; the head is the most recently
`LPUSH`ed message. -/
abbrev ChatStore := List ChatMessage

/-- `LPUSH`: prepend to the head of the list. -/
def lPush (m : ChatMessage) (s : ChatStore) : ChatStore := m :: s

/-- The storage effect of the `send-message` handler (socket.ts 295–297):
`LPUSH` the new message. -/
def sendMessage (s : ChatStore) (m : ChatMessage) : ChatStore := lPush m s

/-- The `request-chat-history` handler (socket.ts 328–335): `LRANGE 0 -1`
(head first) then `.reverse()` for chronological order. -/
def chatHistory (s : ChatStore) : List ChatMessage := s.reverse

/-- Send a sequence of messages in chronological order. -/
def sendAll (s : ChatStore) (msgs : List ChatMessage) : ChatStore :=
  msgs.foldl sendMessage s

/-! ### Operation traces over the durable store -/

/-- One durable membership mutation on a fixed room: the transaction bodies
of `joinRoom` and `leaveRoom`. -/
inductive Op
  | join (uid : String) (nickname : Option String) (newId : String) (now : Nat)
  | leave (uid : String) (now : Nat)
deriving DecidableEq, Repr

/-- Whether an operation is a join. -/
def Op.isJoin : Op → Bool
  | .join _ _ _ _ => true
  | .leave _ _ => false

/-- Apply one operation to the durable store; a failed transaction leaves the
store unchanged (rollback). -/
def applyOp (rid : String) (db : DB) : Op → DB
  | .join uid nick newId now =>
    match joinRoomTx db rid uid nick newId now with
    | .ok (db', _) => db'
    | .error _ => db
  | .leave uid now =>
    match leaveRoomTx db rid uid now with
    | .ok (db', _) => db'
    | .error _ => db

/-- Run a trace of operations on a room. -/
def runOps (rid : String) (db : DB) (ops : List Op) : DB :=
  ops.foldl (applyOp rid) db

/-- Number of rows of a room that are simultaneously active and owner. -/
def activeOwnerCount (db : DB) (rid : String) : Nat :=
  (db.members.filter
    (fun m => m.room_id == rid && m.status == MStatus.active && m.role == Role.owner)).length

/-- Join orders of all membership rows of a room, active and left alike. -/
def joinOrdersOf (db : DB) (rid : String) : List Nat :=
  (db.members.filter (fun m => m.room_id == rid)).map (fun m => m.join_order)

/-! ### Concrete example states -/

/-- The empty durable store. -/
def emptyDB : DB := { rooms := [], members := [] }

/-- A freshly created room `r1` (code `CODE01`, creator `A`, capacity 10,
24-hour expiry) at time 0. -/
def exRoomInit : DB :=
  (createRoomTx emptyDB "r1" "m0" "CODE01" "Trip" "Dest" "A" 10 24 0).1

/-- User `B` joins, leaves, then a fresh user `C` joins: the count-based
assignment hands `C` the join order `B` still holds. -/
def rejoinCollisionTrace : List Op :=
  [.join "B" none "m1" 0, .leave "B" 0, .join "C" none "m2" 0]

/-- User `B` joins, the owner `A` leaves (ownership moves to `B`), then `A`
rejoins: reactivation preserves `A`'s stored `role = owner`. -/
def ownerRejoinTrace : List Op :=
  [.join "B" none "m1" 0, .leave "A" 0, .join "A" none "m2" 0]

/-- A state whose durable room `r1` has already been marked expired while its
cache entry (written when the room was active) survives, with user `A` still
in the cached member set. -/
def staleCacheSt : St :=
  let created := exRoomInit
  let expiredRoom : Room :=
    { (createRoomTx emptyDB "r1" "m0" "CODE01" "Trip" "Dest" "A" 10 24 0).2.1 with
        status := RStatus.expired, completed_at := some 90000000 }
  { db := { created with rooms := [expiredRoom] },
    kv := [],
    cache := [("r1", { room := (createRoomTx emptyDB "r1" "m0" "CODE01" "Trip" "Dest" "A" 10 24 0).2.1,
                       memberCount := 1 })],
    memberSets := [("r1", ["A"])] }

/-- The state reached from `exRoomInit` after `B` joins and leaves again:
`B`'s row persists with status `left` and join order 2. -/
def exAfterLeave : DB :=
  runOps "r1" exRoomInit [.join "B" none "m1" 0, .leave "B" 0]

/-- A closed room, for exercising `joinRoom`'s status guard. -/
def exClosedRoomDB : DB :=
  { exRoomInit with
      rooms := [{ (createRoomTx emptyDB "r1" "m0" "CODE01" "Trip" "Dest" "A" 10 24 0).2.1 with
                    status := RStatus.closed }] }

/-- A single-seat room that is already full (the creator occupies it). -/
def exFullRoomDB : DB :=
  (createRoomTx emptyDB "r2" "m0" "CODE02" "Trip" "Dest" "A" 1 24 0).1

/-- A state in which the code mapping for `CODE01` points at `r1` and no
lock is held. -/
def exJoinSt : St :=
  { db := exRoomInit, kv := [(codeKeyFor "CODE01", "r1")], cache := [], memberSets := [] }

/-- The invariant maintained by join-only traces on a fresh room `rid`:
every membership row belongs to `rid` and is active, the join orders are
pairwise distinct, and each join order lies in `1 … memberCount`. -/
def JoinInv (rid : String) (db : DB) : Prop :=
  (∀ m ∈ db.members, m.room_id = rid ∧ m.status = MStatus.active) ∧
  (db.members.map (fun m => m.join_order)).Nodup ∧
  (∀ m ∈ db.members, 1 ≤ m.join_order ∧ m.join_order ≤ db.members.length)

/-! ## Theorems -/

/-! ### Key-value store lemmas -/

theorem kvGet_kvSet_self (kv : KV) (k v : String) :
    kvGet (kvSet kv k v) k = some v := by
  induction kv with
  | nil => simp [kvSet, kvGet]
  | cons p ps ih =>
    by_cases h : p.1 == k
    · simp [kvSet, h, kvGet]
    · simp [kvSet, h, kvGet, List.find?] at ih ⊢
      simpa [h] using ih

theorem kvGet_kvDel_self (kv : KV) (k : String) :
    kvGet (kvDel kv k) k = none := by
  have h : (kvDel kv k).find? (fun p => p.1 == k) = none := by
    apply List.find?_eq_none.mpr
    intro p hp
    have hpk := List.of_mem_filter hp
    simpa using hpk
  simp [kvGet, h]

theorem cacheLookup_cacheSet_self (c : RoomCache) (rid : String) (v : CachedRoom) :
    cacheLookup (cacheSet c rid v) rid = some v := by
  induction c with
  | nil => simp [cacheSet, cacheLookup]
  | cons p ps ih =>
    by_cases h : p.1 == rid
    · simp [cacheSet, h, cacheLookup]
    · simp [cacheSet, h, cacheLookup, List.find?] at ih ⊢
      simpa [h] using ih

/-! ### Claim C1 -/

/-- C1 (counterexample): after `createRoom` by `A`, a join by `B`, `B`
leaving, and a join by `C`, room `r1` holds the join orders `[1, 2, 2]` —
`C`'s count-based order collides with the one still stored on `B`'s left
row, so the join orders of a room's rows (active and left alike) are not
pairwise distinct. -/
theorem joinOrder_collision_after_leave :
    joinOrdersOf (runOps "r1" exRoomInit rejoinCollisionTrace) "r1" = [1, 2, 2] ∧
    ¬ (joinOrdersOf (runOps "r1" exRoomInit rejoinCollisionTrace) "r1").Nodup := by
  have e : joinOrdersOf (runOps "r1" exRoomInit rejoinCollisionTrace) "r1" = [1, 2, 2] := by
    rfl
  refine ⟨e, ?_⟩
  rw [e]
  decide

theorem filter_active_eq_self (rid : String) (db : DB)
    (hmem : ∀ m ∈ db.members, m.room_id = rid ∧ m.status = MStatus.active) :
    activeMembersOf db rid = db.members := by
  rw [activeMembersOf]
  apply List.filter_eq_self.mpr
  intro m hm
  rcases hmem m hm with ⟨h1, h2⟩
  simp [h1, h2]

theorem joinStep_inv (rid uid : String) (nick : Option String) (newId : String)
    (now : Nat) (db : DB) (h : JoinInv rid db) :
    JoinInv rid (applyOp rid db (.join uid nick newId now)) := by
  obtain ⟨hmem, hnodup, hbound⟩ := h
  rw [applyOp]
  cases hj : joinRoomTx db rid uid nick newId now with
  | error e => exact ⟨hmem, hnodup, hbound⟩
  | ok p =>
    obtain ⟨db', res⟩ := p
    cases hr : findRoom db rid with
    | none =>
      rw [joinRoomTx, hr] at hj
      cases hj
    | some room =>
      by_cases hs : room.status = RStatus.active
      case neg =>
        have hrun : joinRoomTx db rid uid nick newId now = .error .inactive := by
          rw [joinRoomTx, hr]
          simp [hs]
        rw [hrun] at hj
        cases hj
      case pos =>
      by_cases he : isExpired room now = true
      case pos =>
        have hrun : joinRoomTx db rid uid nick newId now = .error .expired := by
          rw [joinRoomTx, hr]
          simp [hs, he]
        rw [hrun] at hj
        cases hj
      case neg =>
      have he' : isExpired room now = false := by simpa using he
      by_cases hf : (activeMembersOf db rid).length ≥ room.max_members
      case pos =>
        have hrun : joinRoomTx db rid uid nick newId now = .error .roomFull := by
          rw [joinRoomTx, hr]
          simp [hs, he', hf]
        rw [hrun] at hj
        cases hj
      case neg =>
      cases hfm : findMemberRow db rid uid with
      | some em =>
        have hemact : em.status = MStatus.active :=
          (hmem em (List.mem_of_find?_eq_some hfm)).2
        have hrun : joinRoomTx db rid uid nick newId now = .error .alreadyMember := by
          rw [joinRoomTx, hr]
          simp [hs, he', hf, hfm, hemact]
        rw [hrun] at hj
        cases hj
      | none =>
        have hall : activeMembersOf db rid = db.members :=
          filter_active_eq_self rid db hmem
        have heq : joinRoomTx db rid uid nick newId now =
            .ok ({ db with members := db.members ++ [{ id := newId, room_id := rid, user_id := uid, nickname := nick.getD "Member", role := Role.member, status := MStatus.active, join_order := (activeMembersOf db rid).length + 1, last_seen := some now, left_at := none }] },
                 ⟨room, { id := newId, room_id := rid, user_id := uid, nickname := nick.getD "Member", role := Role.member, status := MStatus.active, join_order := (activeMembersOf db rid).length + 1, last_seen := some now, left_at := none }, false⟩) := by
          rw [joinRoomTx, hr]
          simp [hs, he', hf, hfm]
        rw [heq] at hj
        cases hj
        rw [hall]
        refine ⟨?_, ?_, ?_⟩
        · intro m hm
          rcases List.mem_append.mp hm with hly | hnew
          · exact hmem m hly
          · rw [List.mem_singleton.mp hnew]
            exact ⟨rfl, rfl⟩
        · rw [List.map_append]
          apply List.Nodup.append hnodup (by simp)
          intro a ha hb
          simp only [List.map_cons, List.map_nil, List.mem_singleton] at hb
          rcases List.mem_map.mp ha with ⟨m, hmem2, hjo⟩
          have := (hbound m hmem2).2
          omega
        · intro m hm
          rw [List.length_append]
          rcases List.mem_append.mp hm with hly | hnew
          · rcases hbound m hly with ⟨h1, h2⟩
            exact ⟨h1, by simp; omega⟩
          · rw [List.mem_singleton.mp hnew]
            constructor
            · exact Nat.succ_le_succ (Nat.zero_le _)
            · simp

theorem runOps_joinInv (rid : String) (ops : List Op) (db : DB)
    (h : JoinInv rid db) (hops : ∀ op ∈ ops, op.isJoin = true) :
    JoinInv rid (runOps rid db ops) := by
  induction ops generalizing db with
  | nil => exact h
  | cons op rest ih =>
    cases op with
    | join uid nick newId now =>
      exact ih (applyOp rid db (.join uid nick newId now))
        (joinStep_inv rid uid nick newId now db h)
        (fun o ho => hops o (List.mem_cons_of_mem _ ho))
    | leave uid now =>
      have := hops (.leave uid now) (List.mem_cons_self _ _)
      simp [Op.isJoin] at this

/-- C1 (amended): for every trace of `createRoom` followed by `joinRoom`
operations only, the room's join orders are pairwise distinct and positive
(the claim's uniqueness is violated as soon as a join follows a leave, as
the counterexample shows: the count-based assignment can then reuse a left
member's stored join order). -/
theorem joinOrders_distinct_without_leaves
    (roomId memberId code name destName createdBy : String)
    (maxMembers expiresIn now : Nat) (ops : List Op)
    (hops : ∀ op ∈ ops, op.isJoin = true) :
    ((runOps roomId (createRoomTx emptyDB roomId memberId code name destName createdBy maxMembers expiresIn now).1 ops).members.map (fun m => m.join_order)).Nodup ∧
    ∀ m ∈ (runOps roomId (createRoomTx emptyDB roomId memberId code name destName createdBy maxMembers expiresIn now).1 ops).members,
      1 ≤ m.join_order := by
  have hinit : JoinInv roomId
      (createRoomTx emptyDB roomId memberId code name destName createdBy maxMembers expiresIn now).1 := by
    refine ⟨?_, ?_, ?_⟩
    · intro m hm
      simp only [createRoomTx, emptyDB, List.nil_append, List.mem_singleton] at hm
      rw [hm]
      exact ⟨rfl, rfl⟩
    · simp [createRoomTx, emptyDB]
    · intro m hm
      simp only [createRoomTx, emptyDB, List.nil_append, List.mem_singleton] at hm
      rw [hm]
      simp [createRoomTx, emptyDB]
  have h := runOps_joinInv roomId ops _ hinit hops
  exact ⟨h.2.1, fun m hm => (h.2.2 m hm).1⟩

/-- C1 (amended, witness): two fresh joins after room creation yield the
distinct positive join orders 1, 2, 3. -/
theorem joinOrders_distinct_without_leaves_witness :
    ((runOps "r1" (createRoomTx emptyDB "r1" "m0" "CODE01" "Trip" "Dest" "A" 10 24 0).1 [.join "B" none "m1" 0, .join "C" none "m2" 0]).members.map (fun m => m.join_order)).Nodup ∧
    ∀ m ∈ (runOps "r1" (createRoomTx emptyDB "r1" "m0" "CODE01" "Trip" "Dest" "A" 10 24 0).1 [.join "B" none "m1" 0, .join "C" none "m2" 0]).members,
      1 ≤ m.join_order := by
  exact joinOrders_distinct_without_leaves "r1" "m0" "CODE01" "Trip" "Dest" "A" 10 24 0
    [.join "B" none "m1" 0, .join "C" none "m2" 0] (by decide)

/-! ### Claim C2 -/

/-- C2 (failing input): after `createRoom` by `A`, a join by `B`, the owner
`A` leaving (which promotes `B`), and `A` rejoining, room `r1` has two
active members whose role is `owner` — `leaveRoom` never demotes the
departing owner's stored role and `joinRoom`'s reactivation preserves it, so
the at-most-one-active-owner invariant is violated. -/
theorem two_active_owners_after_owner_rejoin :
    activeOwnerCount (runOps "r1" exRoomInit ownerRejoinTrace) "r1" = 2 := by
  rfl

/-! ### Claim C9 -/

theorem sendAll_append_rev (s : ChatStore) (msgs : List ChatMessage) :
    sendAll s msgs = msgs.reverse ++ s := by
  induction msgs generalizing s with
  | nil => rfl
  | cons m ms ih =>
    show sendAll (m :: s) ms = (m :: ms).reverse ++ s
    rw [ih]
    simp

/-- C9: the chat history operation returns the retained messages oldest
first even though the storage list is newest first (`LPUSH` prepends, the
handler reverses), and a `send-message` followed by a history request yields
the appended message as the last element. -/
theorem chatHistory_chronological :
    (∀ msgs : List ChatMessage, chatHistory (sendAll [] msgs) = msgs) ∧
    (∀ (s : ChatStore) (m : ChatMessage),
      (chatHistory (sendMessage s m)).getLast? = some m) := by
  constructor
  · intro msgs
    rw [chatHistory, sendAll_append_rev]
    simp
  · intro s m
    show ((m :: s).reverse).getLast? = some m
    simp

/-! ### Claim C10 -/

/-- C10: the cached member-count update stores `max 0 (count + delta)` —
never a negative value — whenever a cached entry exists, and is a no-op when
none does. -/
theorem memberCount_never_negative (c : RoomCache) (rid : String) (delta : Int) :
    (cacheLookup c rid = none → updateRoomMemberCount c rid delta = c) ∧
    (∀ cr, cacheLookup c rid = some cr →
      cacheLookup (updateRoomMemberCount c rid delta) rid =
        some { cr with memberCount := max 0 (cr.memberCount + delta) } ∧
      ∀ cr', cacheLookup (updateRoomMemberCount c rid delta) rid = some cr' →
        0 ≤ cr'.memberCount) := by
  constructor
  · intro h
    rw [updateRoomMemberCount, h]
  · intro cr h
    have e : cacheLookup (updateRoomMemberCount c rid delta) rid =
        some { cr with memberCount := max 0 (cr.memberCount + delta) } := by
      rw [updateRoomMemberCount, h]
      exact cacheLookup_cacheSet_self c rid _
    refine ⟨e, ?_⟩
    intro cr' h'
    rw [e] at h'
    cases h'
    exact le_max_left 0 _

/-- C10 (witness): the update at a concrete cache: an entry at count 0 with
delta −1 stays 0, and a missing entry is untouched. -/
theorem memberCount_never_negative_witness :
    updateRoomMemberCount [] "r1" (-1) = [] ∧
    cacheLookup (updateRoomMemberCount
        [("r1", { room := (createRoomTx emptyDB "r1" "m0" "CODE01" "Trip" "Dest" "A" 10 24 0).2.1,
                  memberCount := 0 })] "r1" (-1)) "r1" =
      some { room := (createRoomTx emptyDB "r1" "m0" "CODE01" "Trip" "Dest" "A" 10 24 0).2.1,
             memberCount := 0 } := by
  constructor
  · exact (memberCount_never_negative [] "r1" (-1)).1 rfl
  · have h := ((memberCount_never_negative
      [("r1", { room := (createRoomTx emptyDB "r1" "m0" "CODE01" "Trip" "Dest" "A" 10 24 0).2.1,
                memberCount := 0 })] "r1" (-1)).2
      { room := (createRoomTx emptyDB "r1" "m0" "CODE01" "Trip" "Dest" "A" 10 24 0).2.1,
        memberCount := 0 } rfl).1
    simpa using h

/-! ### Claim C3 -/

/-- C3: the lock release is a compare-and-delete — it deletes the key only
when the stored value equals the releasing holder's token, and a mismatched
or absent value leaves the store untouched — and `joinRoom` runs it on every
exit path after acquisition: whatever the transaction outcome, the lock key
acquired by `joinRoom` is gone from the resulting state. -/
theorem joinRoom_releases_lock :
    (∀ (kv : KV) (k tok v : String), kvGet kv k = some v → v ≠ tok →
      releaseLock kv k tok = kv) ∧
    (∀ (kv : KV) (k tok : String), kvGet kv k = none →
      releaseLock kv k tok = kv) ∧
    (∀ (kv : KV) (k tok : String), kvGet kv k = some tok →
      kvGet (releaseLock kv k tok) k = none) ∧
    (∀ (st : St) (code uid : String) (nickname : Option String)
       (lockTok newId : String) (now : Nat) (rid : String),
      resolveRoomCode st.db st.kv code = .ok rid →
      kvGet st.kv (lockKeyFor rid) = none →
      kvGet (joinRoom st code uid nickname lockTok newId now).2.kv (lockKeyFor rid) = none) := by
  refine ⟨?_, ?_, ?_, ?_⟩
  · intro kv k tok v h hne
    rw [releaseLock, h]
    simp [hne]
  · intro kv k tok h
    rw [releaseLock, h]
  · intro kv k tok h
    rw [releaseLock, h]
    simp [kvGet_kvDel_self]
  · intro st code uid nickname lockTok newId now rid hres hfree
    have hacq : setNX st.kv (lockKeyFor rid) lockTok =
        (true, kvSet st.kv (lockKeyFor rid) lockTok) := by
      rw [setNX, hfree]
    have hrel : kvGet (releaseLock (kvSet st.kv (lockKeyFor rid) lockTok)
        (lockKeyFor rid) lockTok) (lockKeyFor rid) = none := by
      rw [releaseLock, kvGet_kvSet_self]
      simp [kvGet_kvDel_self]
    cases hj : joinRoomTx st.db rid uid nickname newId now with
    | error e =>
      simp only [joinRoom, hres, hacq, hj]
      exact hrel
    | ok p =>
      cases p with
      | mk db' res =>
        simp only [joinRoom, hres, hacq, hj]
        exact hrel

/-- C3 (witness): a successful join through `exJoinSt` leaves no lock key
behind, and a release under the wrong token changes nothing. -/
theorem joinRoom_releases_lock_witness :
    kvGet (joinRoom exJoinSt "CODE01" "B" none "tok1" "m1" 0).2.kv (lockKeyFor "r1") = none ∧
    releaseLock [("k", "a")] "k" "b" = [("k", "a")] := by
  constructor
  · exact joinRoom_releases_lock.2.2.2 exJoinSt "CODE01" "B" none "tok1" "m1" 0 "r1" rfl rfl
  · exact joinRoom_releases_lock.1 [("k", "a")] "k" "b" "a" rfl (by decide)

/-! ### Claim C4 -/

/-- C4: when a user who has an existing membership row with status `left`
joins again (the room guards passing), the transaction reactivates that same
row — same primary key, same join order, status back to `active`, nickname
and last-seen refreshed — and reports `isRejoining = true`; no second row for the
`(room, user)` pair is created, and no member's join order changes.  Row
identity is read off the primary keys, which are pairwise distinct in any
real table. -/
theorem joinRoom_rejoin_reactivates_row (db : DB) (rid uid : String)
    (nickname : Option String) (newId : String) (now : Nat) (room : Room) (em : RoomMember)
    (hids : (db.members.map (fun m => m.id)).Nodup)
    (hroom : findRoom db rid = some room)
    (hact : room.status = RStatus.active)
    (hexp : isExpired room now = false)
    (hfull : (activeMembersOf db rid).length < room.max_members)
    (hfind : findMemberRow db rid uid = some em)
    (hleft : em.status = MStatus.left) :
    ∃ db' res, joinRoomTx db rid uid nickname newId now = .ok (db', res) ∧
      res.isRejoining = true ∧
      res.roomMember.id = em.id ∧
      res.roomMember.user_id = uid ∧
      res.roomMember.join_order = em.join_order ∧
      res.roomMember.status = MStatus.active ∧
      res.roomMember.last_seen = some now ∧
      res.roomMember.nickname = nickname.getD em.nickname ∧
      db'.rooms = db.rooms ∧
      db'.members.length = db.members.length ∧
      db'.members.map (fun m => (m.room_id, m.user_id)) =
        db.members.map (fun m => (m.room_id, m.user_id)) ∧
      db'.members.map (fun m => m.join_order) =
        db.members.map (fun m => m.join_order) := by
  have hememb : em ∈ db.members := List.mem_of_find?_eq_some hfind
  have hpred := List.find?_some hfind
  have huid : em.user_id = uid := by
    simp only [Bool.and_eq_true, beq_iff_eq] at hpred
    exact hpred.2
  have hne : ¬ em.status = MStatus.active := by
    rw [hleft]
    simp
  have hnotfull : ¬ (activeMembersOf db rid).length ≥ room.max_members :=
    not_le.mpr hfull
  have hrow : ∀ m ∈ db.members, m.id = em.id → m = em := by
    intro m hm hid
    exact List.inj_on_of_nodup_map hids hm hememb hid
  have heq : joinRoomTx db rid uid nickname newId now =
      .ok ({ db with members := updateMemberRow db.members em.id (fun _ => { em with status := MStatus.active, nickname := nickname.getD em.nickname, last_seen := some now }) },
           ⟨room, { em with status := MStatus.active, nickname := nickname.getD em.nickname, last_seen := some now }, true⟩) := by
    rw [joinRoomTx, hroom]
    simp [hact, hexp, hnotfull, hfind, hne]
  refine ⟨_, _, heq, rfl, rfl, huid, rfl, rfl, rfl, rfl, rfl, ?_, ?_, ?_⟩
  · simp [updateMemberRow]
  · show (updateMemberRow db.members em.id _).map _ = _
    rw [updateMemberRow, List.map_map]
    apply List.map_congr_left
    intro m hm
    by_cases h : m.id = em.id
    · have hme : m = em := hrow m hm h
      subst hme
      simp
    · simp [h]
  · show (updateMemberRow db.members em.id _).map _ = _
    rw [updateMemberRow, List.map_map]
    apply List.map_congr_left
    intro m hm
    by_cases h : m.id = em.id
    · have hme : m = em := hrow m hm h
      subst hme
      simp
    · simp [h]

/-- C4 (witness): `B` rejoining `r1` in `exAfterLeave` reactivates the
original row `m1` with its original join order 2. -/
theorem joinRoom_rejoin_reactivates_row_witness :
    ∃ db' res, joinRoomTx exAfterLeave "r1" "B" (some "Bee") "m9" 5 = .ok (db', res) ∧
      res.isRejoining = true ∧
      res.roomMember.id = "m1" ∧
      res.roomMember.join_order = 2 ∧
      db'.members.map (fun m => m.join_order) =
        exAfterLeave.members.map (fun m => m.join_order) := by
  obtain ⟨db', res, h1, h2, h3, _, h5, _, _, _, _, _, _, h12⟩ :=
    joinRoom_rejoin_reactivates_row exAfterLeave "r1" "B" (some "Bee") "m9" 5 _ _
      (by decide) rfl rfl rfl (by decide) rfl rfl
  exact ⟨db', res, h1, h2, h3, h5, h12⟩

/-! ### Claim C5 -/

theorem leaveRoomTx_already_left (db : DB) (rid uid : String) (now : Nat)
    (rm : RoomMember) (h : findMemberRow db rid uid = some rm)
    (hl : rm.status = MStatus.left) :
    leaveRoomTx db rid uid now = .ok (db, rm) := by
  rw [leaveRoomTx, h]
  simp [hl]

/-- C5: `leaveRoom` is idempotent — when the membership row is already
`left`, the call returns that row with no error and leaves the durable store
untouched (so no second ownership transfer and no room-status change) — and
when no membership row exists at all it fails with the not-a-member error. -/
theorem leaveRoom_idempotent (st : St) (rid uid : String) (now : Nat) :
    (∀ rm, findMemberRow st.db rid uid = some rm → rm.status = MStatus.left →
      (leaveRoomFull st rid uid now).1 = .ok rm ∧
      (leaveRoomFull st rid uid now).2.db = st.db) ∧
    (findMemberRow st.db rid uid = none →
      (leaveRoomFull st rid uid now).1 = .error .notMember) := by
  constructor
  · intro rm h hl
    rw [leaveRoomFull, leaveRoomTx_already_left st.db rid uid now rm h hl]
    simp [hl]
  · intro h
    rw [leaveRoomFull, leaveRoomTx, h]

/-- C5 (witness): in `exAfterLeave`, a repeated leave by `B` succeeds and
changes nothing durable, and a leave by the stranger `Z` fails with the
not-a-member error. -/
theorem leaveRoom_idempotent_witness :
    (leaveRoomFull { db := exAfterLeave, kv := [], cache := [], memberSets := [] }
        "r1" "B" 7).2.db = exAfterLeave ∧
    (leaveRoomFull { db := exAfterLeave, kv := [], cache := [], memberSets := [] }
        "r1" "Z" 7).1 = .error .notMember := by
  constructor
  · exact ((leaveRoom_idempotent
      { db := exAfterLeave, kv := [], cache := [], memberSets := [] } "r1" "B" 7).1
      _ rfl rfl).2
  · exact (leaveRoom_idempotent
      { db := exAfterLeave, kv := [], cache := [], memberSets := [] } "r1" "Z" 7).2 rfl

/-! ### Claim C6 -/

/-- C6: inside the lock, the join transaction re-reads the room and fails
with the room-full error when the active member count has reached
`max_members`, with the expired error when the expiry timestamp is past, and
with the inactive error when the status is not `active` (the code checks
status, then expiry, then capacity); every failure rolls the transaction
back, so the durable store is unchanged. -/
theorem joinRoom_guard_errors (db : DB) (rid uid : String) (nickname : Option String)
    (newId : String) (now : Nat) (room : Room)
    (hroom : findRoom db rid = some room) :
    (room.status ≠ RStatus.active →
      joinRoomTx db rid uid nickname newId now = .error .inactive) ∧
    (room.status = RStatus.active → isExpired room now = true →
      joinRoomTx db rid uid nickname newId now = .error .expired) ∧
    (room.status = RStatus.active → isExpired room now = false →
      (activeMembersOf db rid).length ≥ room.max_members →
      joinRoomTx db rid uid nickname newId now = .error .roomFull) ∧
    (∀ e, joinRoomTx db rid uid nickname newId now = .error e →
      applyOp rid db (.join uid nickname newId now) = db) := by
  refine ⟨?_, ?_, ?_, ?_⟩
  · intro h
    rw [joinRoomTx, hroom]
    simp [h]
  · intro h he
    rw [joinRoomTx, hroom]
    simp [h, he]
  · intro h he hf
    rw [joinRoomTx, hroom]
    simp [h, he, hf]
  · intro e he
    rw [applyOp, he]

/-- C6 (witness): a join into the closed room errors inactive, a join after
the expiry errors expired, a join into the full one-seat room errors
room-full, and each of these leaves the store unchanged. -/
theorem joinRoom_guard_errors_witness :
    joinRoomTx exClosedRoomDB "r1" "B" none "m1" 0 = .error .inactive ∧
    joinRoomTx exRoomInit "r1" "B" none "m1" 90000000 = .error .expired ∧
    joinRoomTx exFullRoomDB "r2" "B" none "m1" 0 = .error .roomFull ∧
    applyOp "r2" exFullRoomDB (.join "B" none "m1" 0) = exFullRoomDB := by
  have h1 := (joinRoom_guard_errors exClosedRoomDB "r1" "B" none "m1" 0 _ rfl).1
    (by decide)
  have h2 := (joinRoom_guard_errors exRoomInit "r1" "B" none "m1" 90000000 _ rfl).2.1
    rfl (by decide)
  have h3 := (joinRoom_guard_errors exFullRoomDB "r2" "B" none "m1" 0 _ rfl).2.2.1
    rfl rfl (by decide)
  have h4 := (joinRoom_guard_errors exFullRoomDB "r2" "B" none "m1" 0 _ rfl).2.2.2
    .roomFull h3
  exact ⟨h1, h2, h3, h4⟩

/-! ### Claim C7 -/

/-- C7: when the durable transaction of `createRoom` fails after the room
code was allocated, the error propagates and the code reservation is
released first — the resulting key-value store has no binding for the code
key, and the durable store and snapshot cache are untouched. -/
theorem createRoom_releases_code_on_failure (st : St)
    (code roomId memberId name destName createdBy : String)
    (maxMembers expiresIn now : Nat) :
    (createRoom st code roomId memberId name destName createdBy
        maxMembers expiresIn now true).1 = .error .txFailed ∧
    kvGet (createRoom st code roomId memberId name destName createdBy
        maxMembers expiresIn now true).2.kv (codeKeyFor code) = none ∧
    (createRoom st code roomId memberId name destName createdBy
        maxMembers expiresIn now true).2.db = st.db ∧
    (createRoom st code roomId memberId name destName createdBy
        maxMembers expiresIn now true).2.cache = st.cache := by
  refine ⟨rfl, ?_, rfl, rfl⟩
  rw [createRoom]
  simp only [if_pos rfl]
  exact kvGet_kvDel_self _ _

/-! ### Claim C8 -/

/-- C8: on a snapshot-cache hit, `getRoomDetails` authorizes by the cached
member set alone and returns the cached view without re-checking the durable
room's status or expiry; in `staleCacheSt`, whose durable room is already
expired but whose cache entry survives from when it was active, the call
grants access and returns the stale cached view. -/
theorem getRoomDetails_cache_skips_freshness :
    (∀ (st : St) (rid uid : String) (data : CachedRoom),
      cacheLookup st.cache rid = some data →
      sIsMember st.memberSets rid uid = true →
      (getRoomDetails st rid (some uid)).1 = .ok (.cached data)) ∧
    ((findRoom staleCacheSt.db "r1").map Room.status = some RStatus.expired ∧
      ∃ data, cacheLookup staleCacheSt.cache "r1" = some data ∧
        data.room.status = RStatus.active ∧
        (getRoomDetails staleCacheSt "r1" (some "A")).1 = .ok (.cached data)) := by
  have hmain : ∀ (st : St) (rid uid : String) (data : CachedRoom),
      cacheLookup st.cache rid = some data →
      sIsMember st.memberSets rid uid = true →
      (getRoomDetails st rid (some uid)).1 = .ok (.cached data) := by
    intro st rid uid data h hm
    rw [getRoomDetails, h]
    simp [hm]
  refine ⟨hmain, rfl, ?_⟩
  exact ⟨_, rfl, rfl, hmain staleCacheSt "r1" "A" _ rfl rfl⟩

/-- C8 (witness): the cache-hit read of the stale state succeeds. -/
theorem getRoomDetails_cache_skips_freshness_witness :
    (getRoomDetails staleCacheSt "r1" (some "A")).1 =
      .ok (.cached { room := (createRoomTx emptyDB "r1" "m0" "CODE01" "Trip" "Dest" "A" 10 24 0).2.1,
                     memberCount := 1 }) := by
  exact getRoomDetails_cache_skips_freshness.1 staleCacheSt "r1" "A" _ rfl rfl

end WeMaps
